import Mathlib

/-!
Verification development for the market-seasonality-explorer data pipeline.

The TypeScript sources are shallowly embedded: JavaScript numbers are
modelled as exact rationals (ℚ) wherever the code stays in the field
operations, and as real numbers (ℝ) where the code takes a square root
(the rolling-volatility standard deviation).  In this exact-arithmetic
model the code's `isNaN` / `isFinite` guards are unreachable: every
division that could produce NaN/Infinity in JS is guarded by a positivity
filter in the code itself, so those guards are modelled as always-passing.
Timestamps and calendar dates are modelled as integers (epoch instants,
respectively day numbers); the `yyyy-MM-dd` formatting of a record's date
is abstracted to the raw timestamp, which no claim depends on.
-/

set_option maxHeartbeats 1000000

/-- MarketData record (src/types, `MarketData`): one daily candle after
validation.  `date` is the candle's open-time instant. -/
structure MarketData where
  date : Int
  «open» : ℚ
  high : ℚ
  low : ℚ
  close : ℚ
  volume : ℚ
  volatility : ℚ
deriving DecidableEq, Inhabited

/-- EnhancedMarketData: the output record type of the volatility enhancer.
Identical to `MarketData` except that `volatility` lives in ℝ, because the
enhanced value involves a square root. -/
structure MarketDataE where
  date : Int
  «open» : ℚ
  high : ℚ
  low : ℚ
  close : ℚ
  volume : ℚ
  volatility : ℝ
deriving Inhabited

/-- Coercion of a validated record into the enhancer's output type,
keeping every field (the volatility is cast into ℝ). -/
def MarketData.toE (r : MarketData) : MarketDataE :=
  { date := r.date, «open» := r.«open», high := r.high, low := r.low,
    close := r.close, volume := r.volume, volatility := (r.volatility : ℝ) }

/-- Mean of a list of rationals, as computed by the `reduce`/`length`
pattern in `calculateVolatility` (src/hooks/use-market-data.ts line 56). -/
def listMean (l : List ℚ) : ℚ := l.sum / l.length

/-- Population variance as computed in `calculateVolatility`
(src/hooks/use-market-data.ts line 57): mean of squared deviations,
divided by the count (not count − 1). -/
def popVariance (l : List ℚ) : ℚ :=
  ((l.map (fun r => (r - listMean l) ^ 2)).sum) / l.length

/-- Consecutive returns `(p_i − p_{i−1}) / p_{i−1}` of a price list
(src/hooks/use-market-data.ts lines 46-52).  The code's NaN/finiteness
filter on each return is unreachable in exact arithmetic because the
caller only passes strictly positive prices. -/
def returnsOf : List ℚ → List ℚ
  | b :: c :: rest => (c - b) / b :: returnsOf (c :: rest)
  | _ => []

/-- Embedding of `calculateVolatility` (src/hooks/use-market-data.ts
lines 38-66): 100 times the population standard deviation of consecutive
returns over the strictly positive entries of `prices`; 0 when fewer than
two valid prices remain. -/
noncomputable def calculateVolatility (prices : List ℚ) : ℝ :=
  if prices.length < 2 then 0
  else
    let validPrices := prices.filter (fun price => 0 < price)
    if validPrices.length < 2 then 0
    else
      let returns := returnsOf validPrices
      if returns.length = 0 then 0
      else Real.sqrt ((popVariance returns : ℚ) : ℝ) * 100

/-- Embedding of `enhanceVolatilityData` (src/hooks/use-market-data.ts
lines 203-245).  `windowStart` is `max 0 (index − windowSize + 1)` in the
source; with `windowSize = min 7 (index+1)` this equals the truncated
natural subtraction `index + 1 - windowSize`.  `window` is
`data.slice(windowStart, index+1)`. -/
noncomputable def enhanceVolatilityData (data : List MarketData) : List MarketDataE :=
  if data.length < 2 then data.map MarketData.toE
  else
    (List.range data.length).map (fun index =>
      let item := data.getD index default
      let windowSize := min 7 (index + 1)
      let windowStart := index + 1 - windowSize
      let window := (data.drop windowStart).take (index + 1 - windowStart)
      let validWindow := window.filter (fun d => 0 < d.close)
      if validWindow.length < 2 then
        { item.toE with volatility := max 0 ((item.volatility : ℝ)) }
      else
        let closePrices := validWindow.map (fun d => d.close)
        let rollingVolatility := calculateVolatility closePrices
        let dailyVol := max 0 ((item.volatility : ℝ))
        let rollingVol := max 0 rollingVolatility
        { item.toE with volatility := dailyVol * 0.6 + rollingVol * 0.4 })

/-- Binance launch instant (`BINANCE_LAUNCH_DATE = new Date(2017, 6, 1)`),
as an epoch-millisecond constant. -/
def BINANCE_LAUNCH_MS : Int := 1498867200000

/-- Largest epoch-millisecond magnitude a JS `Date` accepts; beyond it
`date.getTime()` is NaN. -/
def MAX_DATE_MS : Int := 8640000000000000

/-- RawKline: one raw row of the provider response, after the field-wise
numeric parses.  `none` models a `parseFloat` / `Number` result of NaN;
`rawLen` is the length of the raw array. -/
structure RawKline where
  rawLen : Nat
  openTime : Option Int
  «open» : Option ℚ
  high : Option ℚ
  low : Option ℚ
  close : Option ℚ
  volume : Option ℚ
deriving DecidableEq, Inhabited

/-- Embedding of the per-row validation in `fetchBinanceKlineData`
(src/hooks/use-market-data.ts lines 125-195): the row is dropped (`none`)
on short structure, any non-numeric field, a non-positive price, a broken
high/low relationship, a non-positive or unrepresentable timestamp, or a
pre-launch date; otherwise the cleaned record is produced with
`volatility = max 0 ((high − low) / open × 100)`. -/
def parseKline (k : RawKline) : Option MarketData :=
  if k.rawLen < 11 then none
  else
    match k.«open», k.high, k.low, k.close, k.volume with
    | some openPrice, some highPrice, some lowPrice, some closePrice, some volumeValue =>
      if openPrice ≤ 0 ∨ highPrice ≤ 0 ∨ lowPrice ≤ 0 ∨ closePrice ≤ 0 then none
      else if highPrice < max openPrice closePrice ∨ min openPrice closePrice < lowPrice then none
      else
        match k.openTime with
        | some timestamp =>
          if timestamp ≤ 0 then none
          else
            let dailyVolatility :=
              if 0 < openPrice then (highPrice - lowPrice) / openPrice * 100 else 0
            if MAX_DATE_MS < timestamp then none
            else if timestamp < BINANCE_LAUNCH_MS then none
            else some { date := timestamp, «open» := openPrice, high := highPrice,
                        low := lowPrice, close := closePrice, volume := volumeValue,
                        volatility := max 0 dailyVolatility }
        | none => none
    | _, _, _, _, _ => none

/-- Row pipeline of `fetchBinanceKlineData`: `map` to a nullable record
then `filter(item !== null)`, i.e. `filterMap`. -/
def processKlines (klines : List RawKline) : List MarketData :=
  klines.filterMap parseKline

/-- FetchOutcome: how far `fetchBinanceKlineData` gets before any network
interaction — it throws, returns the empty list, or issues the HTTP
request with the clamped window. -/
inductive FetchOutcome where
  | thrown (msg : String)
  | noData
  | network (validStartTime validEndTime : Int)
deriving DecidableEq

/-- Embedding of the pre-network guards of `fetchBinanceKlineData`
(src/hooks/use-market-data.ts lines 70-88): falsy or inverted range
throws; an `endTime` before the launch instant short-circuits to an empty
result; otherwise the request is issued with `startTime` clamped up to
the launch instant (`Math.floor` is the identity on integers). -/
def fetchBinanceKlineGuard (startTime endTime : Int) : FetchOutcome :=
  if startTime = 0 ∨ endTime = 0 ∨ endTime ≤ startTime then
    FetchOutcome.thrown ("Invalid date range provided")
  else if endTime < BINANCE_LAUNCH_MS then FetchOutcome.noData
  else FetchOutcome.network (max startTime BINANCE_LAUNCH_MS) endTime

/-- LoadOutcome: how far `useMarketData.fetchData` gets before calling
`fetchBinanceKlineData` — an error state without a throw, a thrown
validation error, or the network fetch. -/
inductive LoadOutcome where
  | errorState (msg : String)
  | thrown (msg : String)
  | network
deriving DecidableEq

/-- Embedding of the guard chain of `useMarketData.fetchData`
(src/hooks/use-market-data.ts lines 256-294): pre-launch month becomes an
error state; then inverted range, a symbol shorter than 6 characters
(`!symbol || symbol.length < 6`), and a span above 1000 days each throw;
otherwise the fetch is issued. -/
def useMarketDataGuard (monthBeforeLaunch : Bool) (startTime endTime : Int)
    (symbol : String) (daysDifference : Int) : LoadOutcome :=
  if monthBeforeLaunch then
    LoadOutcome.errorState ("No data available before July 2017 (Binance launch date)")
  else if endTime ≤ startTime then LoadOutcome.thrown ("Start date must be before end date")
  else if symbol.length < 6 then LoadOutcome.thrown ("Invalid trading symbol format")
  else if 1000 < daysDifference then
    LoadOutcome.thrown ("Date range too large. Please select a more recent period.")
  else LoadOutcome.network

/-- Uppercase ASCII letter test, the `[A-Z]` character class. -/
def isUpperAlpha (c : Char) : Bool := 'A' ≤ c && c ≤ 'Z'

/-- Embedding of `validateTradingSymbol` (src/lib/binance-api.ts lines
74-77), the regular expression `^[A-Z]{2,10}USDT?$`: 2 to 10 uppercase
letters followed by `USD` or `USDT`. -/
def validateTradingSymbol (symbol : String) : Bool :=
  let cs := symbol.toList
  let n := cs.length
  (cs.drop (n - 4) == ['U', 'S', 'D', 'T'] && decide (2 ≤ n - 4) && decide (n - 4 ≤ 10) &&
    (cs.take (n - 4)).all isUpperAlpha) ||
  (cs.drop (n - 3) == ['U', 'S', 'D'] && decide (2 ≤ n - 3) && decide (n - 3 ≤ 10) &&
    (cs.take (n - 3)).all isUpperAlpha)

/-- Default `maxRequests` of the `RateLimiter` constructor
(src/lib/binance-api.ts line 17). -/
def defaultMaxRequests : Nat := 1200

/-- Default `timeWindow` (ms) of the `RateLimiter` constructor
(src/lib/binance-api.ts line 17). -/
def defaultTimeWindow : Int := 60000

/-- Embedding of `RateLimiter.waitIfNeeded` (src/lib/binance-api.ts lines
22-38) as a state transformer: given the stored timestamp queue and the
current instant, it returns the new queue and the suspension duration (if
any).  `Math.min(...[])` is `Infinity` in JS, which makes `waitTime`
negative infinity and skips the wait; that empty case is the `none`
branch of `min?`. -/
def waitIfNeeded (maxRequests : Nat) (timeWindow : Int) (requests : List Int)
    (now : Int) : List Int × Option Int :=
  let kept := requests.filter (fun time => now - time < timeWindow)
  if maxRequests ≤ kept.length then
    match kept.min? with
    | some oldestRequest =>
      let waitTime := timeWindow - (now - oldestRequest) + 100
      if 0 < waitTime then (kept ++ [now], some waitTime)
      else (kept ++ [now], none)
    | none => (kept ++ [now], none)
  else (kept ++ [now], none)

/-- Pattern type tag (src `Pattern.type` union). -/
inductive PatternType where
  | weekly
  | monthly
  | volatility
  | volume
  | anomaly
deriving DecidableEq

/-- Pattern severity tag (src `Pattern.severity` union). -/
inductive PatternSeverity where
  | low
  | medium
  | high
deriving DecidableEq

/-- Pattern record produced by the detector (src `Pattern` interface). -/
structure Pattern where
  id : String
  type : PatternType
  name : String
  description : String
  confidence : ℚ
  occurrences : Nat
  avgImpact : ℚ
  severity : PatternSeverity
deriving DecidableEq

/-- Loop body state of the volatility-clustering scan: `inCluster` flag
and the previous record's volatility, walking the remaining volatilities
(PatternAnalyzer, src/unnamed/part_004 lines 119-133). -/
def clusterCountAux : Bool → ℚ → List ℚ → Nat
  | _, _, [] => 0
  | inCluster, previous, current :: rest =>
    if 2 < current ∧ 2 < previous then
      (if inCluster then 0 else 1) + clusterCountAux true current rest
    else clusterCountAux false current rest

/-- Cluster counter of the volatility-clustering detector: the loop runs
from index 1 with `inCluster = false` and the first volatility as the
initial `previous`. -/
def clusterCount : List ℚ → Nat
  | [] => 0
  | v :: rest => clusterCountAux false v rest

/-- Number of maximal runs, of length at least 2, of consecutive values
above 2.  This is the claim's reading — one cluster per maximal run of
consecutive records in which a value above 2 is immediately preceded by
another value above 2 — written independently of the source's stateful
loop, using takeWhile/dropWhile run splitting. -/
def countRuns : List ℚ → Nat
  | [] => 0
  | v :: rest =>
    if 2 < v then
      (if 1 ≤ (rest.takeWhile (fun w => 2 < w)).length then 1 else 0) +
        countRuns (rest.dropWhile (fun w => 2 < w))
    else countRuns rest
termination_by l => l.length
decreasing_by
  · exact Nat.lt_succ_of_le ((List.dropWhile_sublist _).length_le)
  · exact Nat.lt_succ_self _

/-- Volatility-clustering detector factored out of the `patterns` memo of
`PatternAnalyzer` (src/unnamed/part_004 lines 42-44 and 119-148): under
the 30-record guard it contributes exactly one `volatility` pattern when
the cluster count reaches 3, with the confidence, occurrence, average
impact and severity fields computed there; otherwise it contributes
nothing. -/
def volatilityClusteringPattern (allData : List MarketData) : List Pattern :=
  if allData.length < 30 then []
  else
    let cc := clusterCount (allData.map (fun r => r.volatility))
    if 3 ≤ cc then
      [{ id := "volatility-clustering", type := PatternType.volatility,
         name := "Volatility Clustering",
         description := "High volatility periods tend to be followed by more high volatility",
         confidence := min 85 ((cc : ℚ) / ((allData.length : ℚ) / 10) * 100),
         occurrences := cc,
         avgImpact := ((allData.filter (fun item => 2 < item.volatility)).map
             (fun item => item.volatility)).sum /
           ((allData.filter (fun item => 2 < item.volatility)).length : ℚ),
         severity := PatternSeverity.medium }]
    else []

/-- Alert metric tag (src `Alert.type` union, src/unnamed/part_003). -/
inductive AlertType where
  | volatility
  | performance
  | volume
deriving DecidableEq

/-- Alert condition tag (src `Alert.condition` union). -/
inductive AlertCondition where
  | above
  | below
deriving DecidableEq

/-- Alert record (src/unnamed/part_003 `Alert` interface); `lastTriggered`
holds the triggering instant when set. -/
structure Alert where
  id : String
  type : AlertType
  condition : AlertCondition
  threshold : ℚ
  enabled : Bool
  triggered : Bool
  lastTriggered : Option Int
deriving DecidableEq

/-- Metric extraction of the alert evaluator (src/unnamed/part_003 lines
62-79): volatility directly, performance as the absolute intraday return
percentage, volume scaled to millions. -/
def alertCurrentValue (t : AlertType) (latest : MarketData) : ℚ :=
  match t with
  | AlertType.volatility => latest.volatility
  | AlertType.performance => |((latest.close - latest.«open») / latest.«open») * 100|
  | AlertType.volume => latest.volume / 1000000

/-- Condition evaluation of the alert evaluator (src/unnamed/part_003
lines 81-83). -/
def shouldTrigger (alert : Alert) (currentValue : ℚ) : Bool :=
  match alert.condition with
  | AlertCondition.above => alert.threshold < currentValue
  | AlertCondition.below => currentValue < alert.threshold

/-- Per-alert step of the evaluation effect (src/unnamed/part_003 lines
64-101): a disabled alert is untouched; an enabled, not-yet-triggered
alert whose condition holds flips `triggered`, records the instant and
fires one notification (the Bool); otherwise the alert is returned
unchanged with no notification. -/
def evaluateAlert (latest : MarketData) (now : Int) (alert : Alert) : Alert × Bool :=
  if !alert.enabled then (alert, false)
  else
    let currentValue := alertCurrentValue alert.type latest
    if shouldTrigger alert currentValue && !alert.triggered then
      ({ alert with triggered := true, lastTriggered := some now }, true)
    else (alert, false)

/-- Embedding of `toggleAlert` (src/unnamed/part_003 lines 130-134) on
the matched alert: flips `enabled` and clears `triggered`. -/
def toggleAlert (alert : Alert) : Alert :=
  { alert with enabled := !alert.enabled, triggered := false }

/-- Embedding of `resetAlert` (src/unnamed/part_003 lines 136-138) on the
matched alert: clears `triggered`. -/
def resetAlert (alert : Alert) : Alert :=
  { alert with triggered := false }

/-- Repeated alert evaluation over a sequence of (latest record, instant)
pairs, counting how many notifications fire. -/
def runAlert : Alert → List (MarketData × Int) → Alert × Nat
  | alert, [] => (alert, 0)
  | alert, (d, t) :: rest =>
    let step := evaluateAlert d t alert
    let restRun := runAlert step.1 rest
    (restRun.1, (if step.2 then 1 else 0) + restRun.2)

/-- Week bucket membership test of `renderWeeklyView`
(src/components/calendar.tsx lines 398-401): the record's date lies in
`[weekStart, weekEnd]`; with day-granularity dates the `endOfWeek` bound
is `weekStart + 6`. -/
def weekBucketData (data : List MarketData) (weekStart : Int) : List MarketData :=
  data.filter (fun item => weekStart ≤ item.date ∧ item.date ≤ weekStart + 6)

/-- Per-bucket `totalVolume` of `renderWeeklyView`
(src/components/calendar.tsx line 404). -/
def weekTotalVolume (data : List MarketData) (weekStart : Int) : ℚ :=
  ((weekBucketData data weekStart).map (fun item => item.volume)).sum

/-- Week starts produced by `eachWeekOfInterval` over the calendar range
(src/components/calendar.tsx lines 53-59): consecutive 7-day steps from
the aligned calendar start. -/
def calendarWeekStarts (calendarStart : Int) (numWeeks : Nat) : List Int :=
  (List.range numWeeks).map (fun (k : Nat) => calendarStart + 7 * (k : Int))

/-- Witness record builder: a well-formed daily record with the given
volatility, used as concrete input in several witnesses. -/
def wRecord (vol : ℚ) : MarketData :=
  { date := 0, «open» := 100, high := 102, low := 98, close := 100,
    volume := 1000, volatility := vol }

/-- C4 witness-input-free theorem below; this record is a raw row whose
volume parses to a negative number while every validated field passes. -/
def kNegVolume : RawKline :=
  { rawLen := 12, openTime := some BINANCE_LAUNCH_MS, «open» := some 100,
    high := some 102, low := some 98, close := some 100, volume := some (-5) }

/-- Raw row with every check passing, for the C2 witness. -/
def kGood : RawKline :=
  { rawLen := 12, openTime := some BINANCE_LAUNCH_MS, «open» := some 100,
    high := some 102, low := some 98, close := some 101, volume := some 1000 }

/-- Record produced by `parseKline kGood`. -/
def rGood : MarketData :=
  { date := BINANCE_LAUNCH_MS, «open» := 100, high := 102, low := 98,
    close := 101, volume := 1000, volatility := 4 }

/-- Raw row violating the high/low price relationship, for the C2
witness. -/
def kBadRel : RawKline :=
  { rawLen := 12, openTime := some BINANCE_LAUNCH_MS, «open» := some 100,
    high := some 99, low := some 98, close := some 101, volume := some 1000 }

/-- C4: a well-formed range whose `endTime` lies strictly before the
provider launch instant makes the kline fetcher return the empty record
sequence without issuing a network request and without throwing. -/
theorem fetch_pre_launch_empty (startTime endTime : Int) (h0 : 0 < startTime)
    (hlt : startTime < endTime) (hpre : endTime < BINANCE_LAUNCH_MS) :
    fetchBinanceKlineGuard startTime endTime = FetchOutcome.noData := by
  have hne : ¬(startTime = 0 ∨ endTime = 0 ∨ endTime ≤ startTime) := by
    push_neg
    exact ⟨by omega, by omega, by omega⟩
  simp only [fetchBinanceKlineGuard, if_neg hne, if_pos hpre]

/-- Witness for C4 at the concrete range [1, 2]. -/
theorem fetch_pre_launch_empty_witness :
    fetchBinanceKlineGuard 1 2 = FetchOutcome.noData :=
  fetch_pre_launch_empty 1 2 (by decide) (by decide) (by decide)

/-- C8 counterexample: the lowercase six-letter symbol "abcdef" does not
match the `[A-Z]{2,10}USDT?` pattern, yet the fetch path's guard chain
lets it through to the network request (only `symbol.length < 6` is
checked there). -/
theorem symbol_pattern_not_enforced :
    validateTradingSymbol "abcdef" = false ∧
    useMarketDataGuard false 1 2 "abcdef" 100 = LoadOutcome.network := by
  constructor <;> decide

/-- C8 amended: with a valid ordered range and a post-launch month, a
symbol shorter than 6 characters or a span above 1000 days each fail with
a descriptive thrown error before the network fetch; the regex validator
is not consulted on this path. -/
theorem useMarketDataGuard_validation (startTime endTime : Int) (symbol : String)
    (daysDifference : Int) :
    (startTime < endTime → symbol.length < 6 →
      useMarketDataGuard false startTime endTime symbol daysDifference =
        LoadOutcome.thrown ("Invalid trading symbol format")) ∧
    (startTime < endTime → 6 ≤ symbol.length → 1000 < daysDifference →
      useMarketDataGuard false startTime endTime symbol daysDifference =
        LoadOutcome.thrown ("Date range too large. Please select a more recent period.")) := by
  constructor
  · intro hlt hsym
    unfold useMarketDataGuard
    rw [if_neg (by decide), if_neg (not_le.mpr hlt), if_pos hsym]
  · intro hlt hsym hdd
    unfold useMarketDataGuard
    rw [if_neg (by decide), if_neg (not_le.mpr hlt), if_neg (not_lt.mpr hsym), if_pos hdd]

/-- Witness for the C8 amended theorem at concrete inputs. -/
theorem useMarketDataGuard_validation_witness :
    useMarketDataGuard false 1 2 "AB" 5 =
      LoadOutcome.thrown ("Invalid trading symbol format") ∧
    useMarketDataGuard false 1 2 "ABCDEF" 1001 =
      LoadOutcome.thrown ("Date range too large. Please select a more recent period.") :=
  ⟨(useMarketDataGuard_validation 1 2 "AB" 5).1 (by decide) (by decide),
   (useMarketDataGuard_validation 1 2 "ABCDEF" 1001).2 (by decide) (by decide) (by decide)⟩

/-- C3 counterexample: the raw row `kNegVolume` has a parsed volume of −5
and passes every validation check, so the fetcher's pipeline keeps it:
the output holds exactly one record and that record's volume is negative,
refuting the claim that negative-volume rows are discarded. -/
theorem negative_volume_not_discarded :
    (processKlines [kNegVolume]).length = 1 ∧
    (processKlines [kNegVolume]).all (fun r => r.volume < 0) = true := by
  constructor <;> decide

/-- C3 amended: the validation pipeline discards a row whose volume field
is non-numeric, but it performs no sign check on volume — a retained
row's output volume is exactly the parsed value, negative or not. -/
theorem kline_volume_validation (k : RawKline) :
    (k.volume = none → parseKline k = none) ∧
    (∀ v : ℚ, ∀ r : MarketData, k.volume = some v → parseKline k = some r →
      r.volume = v) := by
  rcases k with ⟨len, ot, o, hi, lo, cl, vo⟩
  constructor
  · intro hv
    simp only at hv
    subst hv
    unfold parseKline
    split
    · rfl
    · cases o <;> cases hi <;> cases lo <;> cases cl <;> rfl
  · intro v r hv hp
    simp only at hv
    subst hv
    unfold parseKline at hp
    split at hp
    · exact absurd hp (by simp)
    · cases o <;> cases hi <;> cases lo <;> cases cl <;> cases ot <;> simp only at hp <;>
        ((repeat' (first | exact Option.noConfusion hp | split at hp)) <;>
          (injection hp with h2; subst h2; rfl))

/-- Witness for the C3 amended theorem: a row with non-numeric volume is
dropped, and the retained `kNegVolume` row keeps its parsed volume −5. -/
theorem kline_volume_validation_witness :
    parseKline { kNegVolume with volume := none } = none ∧
    ({ date := BINANCE_LAUNCH_MS, «open» := 100, high := 102, low := 98,
       close := 100, volume := -5, volatility := 4 } : MarketData).volume = (-5 : ℚ) :=
  ⟨(kline_volume_validation { kNegVolume with volume := none }).1 (by decide),
   (kline_volume_validation kNegVolume).2 (-5)
     { date := BINANCE_LAUNCH_MS, «open» := 100, high := 102, low := 98,
       close := 100, volume := -5, volatility := 4 } (by decide)
     (by norm_num [parseKline, kNegVolume, BINANCE_LAUNCH_MS, MAX_DATE_MS])⟩

/-- Helper for C2: every record produced by `parseKline` satisfies the
price and volatility invariants. -/
theorem parseKline_invariants (k : RawKline) (r : MarketData)
    (h : parseKline k = some r) :
    0 < r.«open» ∧ 0 < r.high ∧ 0 < r.low ∧ 0 < r.close ∧
    max r.«open» r.close ≤ r.high ∧ r.low ≤ min r.«open» r.close ∧
    0 ≤ r.volatility := by
  rcases k with ⟨len, ot, o, hi, lo, cl, vo⟩
  unfold parseKline at h
  split at h
  · exact Option.noConfusion h
  · cases o <;> cases hi <;> cases lo <;> cases cl <;> cases vo <;> cases ot <;>
      simp only at h <;>
      ((repeat' (first | exact Option.noConfusion h | split at h)) <;>
        (injection h with h2
         subst h2
         dsimp only
         push_neg at *
         exact ⟨by tauto, by tauto, by tauto, by tauto, by tauto, by tauto,
           le_max_left 0 _⟩))

/-- C2: every record returned by the kline row pipeline has strictly
positive prices, `high ≥ max(open, close)`, `low ≤ min(open, close)` and
non-negative volatility; and every parsed row violating one of the price
conditions is discarded. -/
theorem kline_price_invariants :
    (∀ klines : List RawKline, ∀ r ∈ processKlines klines,
      0 < r.«open» ∧ 0 < r.high ∧ 0 < r.low ∧ 0 < r.close ∧
      max r.«open» r.close ≤ r.high ∧ r.low ≤ min r.«open» r.close ∧
      0 ≤ r.volatility) ∧
    (∀ k : RawKline, ∀ o h l c : ℚ,
      k.«open» = some o → k.high = some h → k.low = some l → k.close = some c →
      (o ≤ 0 ∨ h ≤ 0 ∨ l ≤ 0 ∨ c ≤ 0 ∨ h < max o c ∨ min o c < l) →
      parseKline k = none) := by
  constructor
  · intro klines r hr
    obtain ⟨k, _, hk⟩ := List.mem_filterMap.mp hr
    exact parseKline_invariants k r hk
  · intro k o h l c ho hh hl hc hbad
    rcases k with ⟨len, ot, ko, khi, klo, kcl, kvo⟩
    simp only at ho hh hl hc
    subst ho hh hl hc
    unfold parseKline
    split
    · rfl
    · cases kvo
      · rfl
      simp only
      rcases hbad with h1 | h1 | h1 | h1 | h1 | h1
      · rw [if_pos (Or.inl h1)]
      · rw [if_pos (Or.inr (Or.inl h1))]
      · rw [if_pos (Or.inr (Or.inr (Or.inl h1)))]
      · rw [if_pos (Or.inr (Or.inr (Or.inr h1)))]
      · by_cases hp : o ≤ 0 ∨ h ≤ 0 ∨ l ≤ 0 ∨ c ≤ 0
        · rw [if_pos hp]
        · rw [if_neg hp, if_pos (Or.inl h1)]
      · by_cases hp : o ≤ 0 ∨ h ≤ 0 ∨ l ≤ 0 ∨ c ≤ 0
        · rw [if_pos hp]
        · rw [if_neg hp, if_pos (Or.inr h1)]

/-- Witness for C2: the record parsed from `kGood` satisfies all the
invariants, and the relationship-violating row `kBadRel` is discarded. -/
theorem kline_price_invariants_witness :
    (0 < rGood.«open» ∧ 0 < rGood.high ∧ 0 < rGood.low ∧ 0 < rGood.close ∧
      max rGood.«open» rGood.close ≤ rGood.high ∧
      rGood.low ≤ min rGood.«open» rGood.close ∧ 0 ≤ rGood.volatility) ∧
    parseKline kBadRel = none :=
  ⟨kline_price_invariants.1 [kGood] rGood
      (by
        have : processKlines [kGood] = [rGood] := by
          norm_num [processKlines, List.filterMap, parseKline, kGood, rGood,
            BINANCE_LAUNCH_MS, MAX_DATE_MS]
        rw [this]
        exact List.mem_singleton.mpr rfl),
   kline_price_invariants.2 kBadRel 100 99 98 101 rfl rfl rfl rfl
     (by norm_num)⟩

/-- C9: `waitIfNeeded` first discards the timestamps older than
`timeWindow`, always appends the new request's timestamp, suspends for
`timeWindow − (now − oldest) + 100` exactly when at least `maxRequests`
timestamps remain (the computed wait is then always positive, so the
suspension really happens), and does not suspend below the limit.  The
constructor defaults are 1200 requests per 60000 ms. -/
theorem waitIfNeeded_spec (maxRequests : Nat) (timeWindow : Int)
    (requests : List Int) (now : Int) :
    (waitIfNeeded maxRequests timeWindow requests now).1 =
      requests.filter (fun time => now - time < timeWindow) ++ [now] ∧
    ((requests.filter (fun time => now - time < timeWindow)).length < maxRequests →
      (waitIfNeeded maxRequests timeWindow requests now).2 = none) ∧
    (∀ oldestRequest : Int,
      maxRequests ≤ (requests.filter (fun time => now - time < timeWindow)).length →
      (requests.filter (fun time => now - time < timeWindow)).min? = some oldestRequest →
      (waitIfNeeded maxRequests timeWindow requests now).2 =
        some (timeWindow - (now - oldestRequest) + 100)) ∧
    (defaultMaxRequests = 1200 ∧ defaultTimeWindow = 60000) := by
  refine ⟨?_, ?_, ?_, rfl, rfl⟩
  · unfold waitIfNeeded
    dsimp only
    split
    · split
      · split <;> rfl
      · rfl
    · rfl
  · intro hlt
    unfold waitIfNeeded
    dsimp only
    rw [if_neg (by omega)]
  · intro oldestRequest hge hmin
    have hmem : oldestRequest ∈ requests.filter (fun time => now - time < timeWindow) :=
      List.min?_mem (fun a b => min_choice a b) hmin
    have hrecent : now - oldestRequest < timeWindow := by
      have := List.of_mem_filter hmem
      exact of_decide_eq_true this
    unfold waitIfNeeded
    dsimp only
    rw [if_pos hge, hmin]
    dsimp only
    rw [if_pos (by omega)]

/-- Witness for C9: one stored recent timestamp with `maxRequests = 1`
forces a suspension of `1000 − (10 − 5) + 100` ms, and the queue records
the new instant. -/
theorem waitIfNeeded_spec_witness :
    (waitIfNeeded 1 1000 [5] 10).2 = some (1000 - (10 - 5) + 100) ∧
    (waitIfNeeded 2 1000 [5] 10).2 = none :=
  ⟨(waitIfNeeded_spec 1 1000 [5] 10).2.2.1 5 (by decide) (by decide),
   (waitIfNeeded_spec 2 1000 [5] 10).2.1 (by decide)⟩

/-- Helper for C6: an already-triggered alert is returned unchanged and
never re-notified by a single evaluation. -/
theorem evaluateAlert_of_triggered (latest : MarketData) (now : Int) (a : Alert)
    (h : a.triggered = true) : evaluateAlert latest now a = (a, false) := by
  unfold evaluateAlert
  split
  · rfl
  · rw [if_neg]
    simp [h]

/-- Helper for C6: an evaluation that does not notify leaves the alert
unchanged. -/
theorem evaluateAlert_no_fire (latest : MarketData) (now : Int) (a : Alert)
    (h : (evaluateAlert latest now a).2 = false) :
    (evaluateAlert latest now a).1 = a := by
  unfold evaluateAlert at h ⊢
  split at h
  · rename_i hc
    rw [if_pos hc]
  · rename_i hc
    rw [if_neg hc]
    dsimp only at h ⊢
    split at h
    · exact absurd h (by simp)
    · rename_i hc2
      rw [if_neg hc2]

/-- Helper for C6: an evaluation that notifies leaves the alert
triggered. -/
theorem evaluateAlert_fire_triggered (latest : MarketData) (now : Int) (a : Alert)
    (h : (evaluateAlert latest now a).2 = true) :
    (evaluateAlert latest now a).1.triggered = true := by
  unfold evaluateAlert at h ⊢
  split at h
  · exact absurd h (by simp)
  · rename_i hc
    rw [if_neg hc]
    dsimp only at h ⊢
    split at h
    · rename_i hc2
      rw [if_pos hc2]
    · exact absurd h (by simp)

/-- Helper for C6: a triggered alert produces no notification over any
sequence of further evaluations. -/
theorem runAlert_of_triggered (a : Alert) (evts : List (MarketData × Int))
    (h : a.triggered = true) : (runAlert a evts).2 = 0 := by
  induction evts generalizing a with
  | nil => rfl
  | cons e rest ih =>
    obtain ⟨d, t⟩ := e
    unfold runAlert
    rw [evaluateAlert_of_triggered d t a h]
    dsimp only
    rw [ih a h]
    rfl

/-- Helper for C6: over any evaluation sequence an alert notifies at most
once. -/
theorem runAlert_le_one (a : Alert) (evts : List (MarketData × Int)) :
    (runAlert a evts).2 ≤ 1 := by
  induction evts generalizing a with
  | nil => exact Nat.zero_le 1
  | cons e rest ih =>
    obtain ⟨d, t⟩ := e
    unfold runAlert
    dsimp only
    cases hfire : (evaluateAlert d t a).2
    · have := evaluateAlert_no_fire d t a hfire
      rw [this]
      simpa using ih a
    · have := evaluateAlert_fire_triggered d t a hfire
      rw [runAlert_of_triggered _ rest this]
      exact Nat.le_refl 1

/-- C6: an enabled, untriggered alert whose metric satisfies its
condition (metrics and conditions as computed by `alertCurrentValue` and
the above/below comparison) transitions to `triggered` and notifies; an
already-triggered alert is never re-fired or re-notified; over any
sequence of evaluations at most one notification fires, and none fires
starting from a triggered alert; toggling or resetting clears
`triggered`. -/
theorem alert_fires_at_most_once (a : Alert) (latest : MarketData) (now : Int)
    (evts : List (MarketData × Int)) :
    (a.triggered = true → evaluateAlert latest now a = (a, false)) ∧
    (a.enabled = true → a.triggered = false →
      ((a.condition = AlertCondition.above ∧
          a.threshold < alertCurrentValue a.type latest) ∨
        (a.condition = AlertCondition.below ∧
          alertCurrentValue a.type latest < a.threshold)) →
      evaluateAlert latest now a =
        ({ a with triggered := true, lastTriggered := some now }, true)) ∧
    (runAlert a evts).2 ≤ 1 ∧
    (a.triggered = true → (runAlert a evts).2 = 0) ∧
    (toggleAlert a).triggered = false ∧
    (resetAlert a).triggered = false := by
  refine ⟨evaluateAlert_of_triggered latest now a, ?_, runAlert_le_one a evts,
    runAlert_of_triggered a evts, rfl, rfl⟩
  intro hen htr hcond
  have hshould : shouldTrigger a (alertCurrentValue a.type latest) = true := by
    unfold shouldTrigger
    rcases hcond with ⟨hc, hv⟩ | ⟨hc, hv⟩ <;> rw [hc] <;> simpa using hv
  unfold evaluateAlert
  rw [if_neg (by simp [hen]), if_pos (by simp [hshould, htr])]

/-- Concrete alert for the C6 witness: volatility above 2. -/
def alertV : Alert :=
  { id := "1", type := AlertType.volatility, condition := AlertCondition.above,
    threshold := 2, enabled := true, triggered := false, lastTriggered := none }

/-- Witness for C6, following the spec scenario: a latest record with
volatility 2.5 triggers `alertV` exactly once; once triggered it never
re-notifies; toggling clears the flag. -/
theorem alert_fires_at_most_once_witness :
    evaluateAlert (wRecord (5 / 2)) 7 alertV =
      ({ alertV with triggered := true, lastTriggered := some 7 }, true) ∧
    (runAlert { alertV with triggered := true }
      [(wRecord 3, 8), (wRecord 3, 9)]).2 = 0 ∧
    (runAlert alertV [(wRecord (5 / 2), 7), (wRecord 3, 8)]).2 ≤ 1 ∧
    (toggleAlert alertV).triggered = false ∧
    evaluateAlert (wRecord 3) 8 { alertV with triggered := true } =
      ({ alertV with triggered := true }, false) :=
  ⟨(alert_fires_at_most_once alertV (wRecord (5 / 2)) 7 []).2.1 rfl rfl
      (Or.inl ⟨rfl, by norm_num [alertCurrentValue, wRecord, alertV]⟩),
   (alert_fires_at_most_once { alertV with triggered := true } (wRecord 3) 8
      [(wRecord 3, 8), (wRecord 3, 9)]).2.2.2.1 rfl,
   (alert_fires_at_most_once alertV (wRecord (5 / 2)) 7
      [(wRecord (5 / 2), 7), (wRecord 3, 8)]).2.2.1,
   (alert_fires_at_most_once alertV (wRecord (5 / 2)) 7 []).2.2.2.2.1,
   (alert_fires_at_most_once { alertV with triggered := true } (wRecord 3) 8 []).1 rfl⟩

/-- Unfolding equation for `countRuns` on the empty list. -/
theorem countRuns_nil : countRuns [] = 0 := by
  rw [countRuns.eq_def]

/-- Unfolding equation for `countRuns` on a cons cell. -/
theorem countRuns_cons (v : ℚ) (rest : List ℚ) :
    countRuns (v :: rest) =
      if 2 < v then
        (if 1 ≤ (rest.takeWhile (fun w => 2 < w)).length then 1 else 0) +
          countRuns (rest.dropWhile (fun w => 2 < w))
      else countRuns rest := by
  rw [countRuns.eq_def]

/-- Helper for C5: the stateful scan agrees with the run-splitting count.
Three coupled facts, by structural induction: starting after a value at
or below 2 the scan counts the runs of the remaining list; starting
inside a run it counts the runs after the current run is consumed; and
starting after a value above 2 but outside a cluster it counts the runs
of the list with that value put back. -/
theorem clusterCountAux_eq (l : List ℚ) :
    (∀ prev : ℚ, prev ≤ 2 → clusterCountAux false prev l = countRuns l) ∧
    (∀ v : ℚ, 2 < v →
      clusterCountAux true v l = countRuns (l.dropWhile (fun w => 2 < w))) ∧
    (∀ v : ℚ, 2 < v → clusterCountAux false v l = countRuns (v :: l)) := by
  induction l with
  | nil =>
    refine ⟨fun prev hp => ?_, fun v hv => ?_, fun v hv => ?_⟩
    · simp [clusterCountAux, countRuns_nil]
    · simp [clusterCountAux, countRuns_nil]
    · simp [clusterCountAux, countRuns_cons, countRuns_nil, hv]
  | cons w rest ih =>
    obtain ⟨ihA, ihB, ihC⟩ := ih
    refine ⟨?_, ?_, ?_⟩
    · intro prev hp
      unfold clusterCountAux
      rw [if_neg (by rintro ⟨h1, h2⟩; exact absurd h2 (not_lt.mpr hp))]
      rcases lt_or_le 2 w with hw | hw
      · exact ihC w hw
      · rw [ihA w hw, countRuns_cons, if_neg (not_lt.mpr hw)]
    · intro v hv
      unfold clusterCountAux
      rcases lt_or_le 2 w with hw | hw
      · rw [if_pos ⟨hw, hv⟩, ihB w hw,
          List.dropWhile_cons_of_pos (by simpa using hw)]
        simp
      · rw [if_neg (by rintro ⟨h1, h2⟩; exact absurd h1 (not_lt.mpr hw)),
          ihA w hw, List.dropWhile_cons_of_neg (by simpa using hw),
          countRuns_cons, if_neg (not_lt.mpr hw)]
    · intro v hv
      unfold clusterCountAux
      rcases lt_or_le 2 w with hw | hw
      · rw [if_pos ⟨hw, hv⟩, ihB w hw, countRuns_cons, if_pos hv,
          List.takeWhile_cons_of_pos (by simpa using hw),
          List.dropWhile_cons_of_pos (by simpa using hw)]
        simp
      · rw [if_neg (by rintro ⟨h1, h2⟩; exact absurd h1 (not_lt.mpr hw)),
          ihA w hw, countRuns_cons, if_pos hv,
          List.takeWhile_cons_of_neg (by simpa using hw),
          List.dropWhile_cons_of_neg (by simpa using hw),
          countRuns_cons, if_neg (not_lt.mpr hw)]
        simp

/-- Helper for C5: the source cluster counter equals the number of
maximal length-≥-2 runs of volatilities above 2. -/
theorem clusterCount_eq_countRuns (l : List ℚ) : clusterCount l = countRuns l := by
  cases l with
  | nil => rw [countRuns_nil]; rfl
  | cons v rest =>
    rcases lt_or_le 2 v with hv | hv
    · exact (clusterCountAux_eq rest).2.2 v hv
    · show clusterCountAux false v rest = countRuns (v :: rest)
      rw [(clusterCountAux_eq rest).1 v hv, countRuns_cons, if_neg (not_lt.mpr hv)]

/-- C5: for a combined history of at least 30 records the detector's
cluster counter counts exactly one cluster per maximal run (of length at
least 2) of consecutive volatilities above 2, and the detector emits
exactly one `volatility` pattern iff that count reaches 3, carrying the
claimed confidence, occurrence count, average impact over the above-2
records, and medium severity. -/
theorem volatility_clustering_spec (allData : List MarketData)
    (h30 : 30 ≤ allData.length) :
    clusterCount (allData.map (fun r => r.volatility)) =
      countRuns (allData.map (fun r => r.volatility)) ∧
    volatilityClusteringPattern allData =
      (if 3 ≤ countRuns (allData.map (fun r => r.volatility)) then
        [{ id := "volatility-clustering", type := PatternType.volatility,
           name := "Volatility Clustering",
           description := "High volatility periods tend to be followed by more high volatility",
           confidence := min 85
             ((countRuns (allData.map (fun r => r.volatility)) : ℚ) /
               ((allData.length : ℚ) / 10) * 100),
           occurrences := countRuns (allData.map (fun r => r.volatility)),
           avgImpact := ((allData.filter (fun item => 2 < item.volatility)).map
               (fun item => item.volatility)).sum /
             ((allData.filter (fun item => 2 < item.volatility)).length : ℚ),
           severity := PatternSeverity.medium }]
      else []) := by
  refine ⟨clusterCount_eq_countRuns _, ?_⟩
  unfold volatilityClusteringPattern
  rw [if_neg (by omega)]
  rw [clusterCount_eq_countRuns]

/-- Volatilities for the C5/C10 witnesses: three separated clusters of
two days above 2, padded with quiet days to reach 30 records. -/
def wVols : List ℚ :=
  [3, 3, 1, 3, 3, 1, 3, 3, 1] ++ List.replicate 21 1

/-- Thirty-record history for the C5/C10 witnesses. -/
def wData30 : List MarketData := wVols.map wRecord

/-- Witness for C5: on the concrete 30-record history the detector emits
exactly one pattern (the cluster count is 3). -/
theorem volatility_clustering_witness :
    (volatilityClusteringPattern wData30).length = 1 := by
  have h := (volatility_clustering_spec wData30 (by decide)).2
  rw [h, if_pos]
  · rfl
  · rw [← clusterCount_eq_countRuns]
    decide

/-- Helper for C10: a positive cluster scan finds a volatility above 2 in
the scanned tail. -/
theorem clusterCountAux_pos_mem (l : List ℚ) :
    ∀ (inC : Bool) (prev : ℚ), 0 < clusterCountAux inC prev l →
      ∃ x ∈ l, 2 < x := by
  induction l with
  | nil => intro inC prev h; exact absurd h (by simp [clusterCountAux])
  | cons w rest ih =>
    intro inC prev h
    unfold clusterCountAux at h
    split at h
    · rename_i hc
      exact ⟨w, List.mem_cons_self w rest, hc.1⟩
    · obtain ⟨x, hx, h2x⟩ := ih false w h
      exact ⟨x, List.mem_cons_of_mem w hx, h2x⟩

/-- C10: whenever the emission condition of the volatility-clustering
detector holds (cluster count at least 3), some record has volatility
above 2, so the average-impact mean divides by a positive count and its
rational denominator is non-zero. -/
theorem cluster_count_implies_high_vol (allData : List MarketData)
    (h : 3 ≤ clusterCount (allData.map (fun r => r.volatility))) :
    0 < (allData.filter (fun item => 2 < item.volatility)).length ∧
    ((allData.filter (fun item => 2 < item.volatility)).length : ℚ) ≠ 0 := by
  have hpos : ∃ x ∈ allData.map (fun r => r.volatility), 2 < x := by
    rcases hl : allData.map (fun r => r.volatility) with _ | ⟨v, rest⟩
    · rw [hl] at h
      exact absurd h (by simp [clusterCount])
    · rw [hl] at h
      obtain ⟨x, hx, h2x⟩ := clusterCountAux_pos_mem rest false v (by
        have : 0 < clusterCount (v :: rest) := by omega
        simpa [clusterCount] using this)
      exact ⟨x, by rw [hl]; exact List.mem_cons_of_mem v hx, h2x⟩
  obtain ⟨x, hx, h2x⟩ := hpos
  obtain ⟨r, hr, rfl⟩ := List.mem_map.mp hx
  have hmem : r ∈ allData.filter (fun item => 2 < item.volatility) :=
    List.mem_filter.mpr ⟨hr, by simpa using h2x⟩
  have hlen : 0 < (allData.filter (fun item => 2 < item.volatility)).length :=
    List.length_pos_of_mem hmem
  exact ⟨hlen, by exact_mod_cast Nat.pos_iff_ne_zero.mp hlen⟩

/-- Witness for C10: the concrete 30-record history has cluster count 3
and indeed contains records above 2% volatility. -/
theorem cluster_count_implies_high_vol_witness :
    0 < (wData30.filter (fun item => 2 < item.volatility)).length ∧
    ((wData30.filter (fun item => 2 < item.volatility)).length : ℚ) ≠ 0 :=
  cluster_count_implies_high_vol wData30 (by decide)

/-- Helper for C7: prepending a record adds its volume once per bucket
containing its date. -/
theorem weekVolume_cons (W : List Int) (r : MarketData) (data : List MarketData) :
    (W.map (weekTotalVolume (r :: data))).sum =
      ((W.filter (fun ws => ws ≤ r.date ∧ r.date ≤ ws + 6)).length : ℚ) * r.volume +
        (W.map (weekTotalVolume data)).sum := by
  induction W with
  | nil => simp
  | cons ws W ih =>
    have hsingle : weekTotalVolume (r :: data) ws =
        (if ws ≤ r.date ∧ r.date ≤ ws + 6 then r.volume else 0) +
          weekTotalVolume data ws := by
      unfold weekTotalVolume weekBucketData
      rw [List.filter_cons]
      by_cases hp : ws ≤ r.date ∧ r.date ≤ ws + 6
      · simp [hp]
      · simp [hp]
    rw [List.map_cons, List.sum_cons, List.filter_cons, hsingle, ih]
    by_cases hp : ws ≤ r.date ∧ r.date ≤ ws + 6
    · rw [if_pos hp, if_pos (decide_eq_true hp), List.length_cons,
        List.map_cons, List.sum_cons]
      push_cast
      ring
    · rw [if_neg hp, if_neg (by simpa using hp), List.map_cons, List.sum_cons]
      ring

/-- Helper for C7: `range n` holds exactly one element equal to a fixed
`k0 < n`. -/
theorem length_filter_eq_one (n k0 : Nat) (h : k0 < n) :
    ((List.range n).filter (fun k => k = k0)).length = 1 := by
  induction n with
  | zero => omega
  | succ m ih =>
    rw [List.range_succ, List.filter_append, List.length_append]
    rcases Nat.lt_or_ge k0 m with hm | hm
    · rw [ih hm]
      have hnil : List.filter (fun k => k = k0) [m] = [] := by
        simp [ne_of_gt hm]
      rw [hnil]
      rfl
    · have hk : k0 = m := by omega
      subst hk
      have h1 : List.filter (fun k => k = k0) (List.range k0) = [] := by
        rw [List.filter_eq_nil_iff]
        intro a ha
        have := List.mem_range.mp ha
        simp only [decide_eq_true_eq]
        omega
      rw [h1]
      simp

/-- Helper for C7: a date inside the covered interval lies in exactly one
of the consecutive week buckets. -/
theorem bucket_unique (s d : Int) (n : Nat) (h1 : s ≤ d) (h2 : d < s + 7 * n) :
    ((calendarWeekStarts s n).filter (fun ws => ws ≤ d ∧ d ≤ ws + 6)).length = 1 := by
  unfold calendarWeekStarts
  rw [List.filter_map, List.length_map]
  have hk0 : (d - s).toNat / 7 < n := by omega
  have hiff : ∀ k : Nat,
      ((s + 7 * (k : Int) ≤ d ∧ d ≤ s + 7 * (k : Int) + 6)) ↔ k = (d - s).toNat / 7 := by
    intro k
    omega
  have hcong : ∀ k ∈ List.range n,
      (decide (s + 7 * (k : Int) ≤ d ∧ d ≤ s + 7 * (k : Int) + 6)) =
        (decide (k = (d - s).toNat / 7)) := by
    intro k _
    exact decide_eq_decide.mpr (hiff k)
  simp only [Function.comp_def]
  rw [List.filter_congr hcong]
  exact length_filter_eq_one n ((d - s).toNat / 7) hk0

/-- C7: when every record's date lies inside the interval tiled by the
`n` consecutive week buckets, summing `totalVolume` across the buckets
equals the total volume of the input records — each record lands in
exactly one bucket. -/
theorem weekly_volume_partition (data : List MarketData) (s : Int) (n : Nat)
    (hcover : ∀ r ∈ data, s ≤ r.date ∧ r.date < s + 7 * n) :
    ((calendarWeekStarts s n).map (weekTotalVolume data)).sum =
      (data.map (fun r => r.volume)).sum := by
  induction data with
  | nil =>
    have hz : weekTotalVolume ([] : List MarketData) = fun _ => 0 := by
      funext ws
      simp [weekTotalVolume, weekBucketData]
    rw [hz]
    simp
  | cons r rest ih =>
    have hr := hcover r (List.mem_cons_self r rest)
    rw [weekVolume_cons, bucket_unique s r.date n hr.1 hr.2,
      ih (fun x hx => hcover x (List.mem_cons_of_mem r hx)),
      List.map_cons, List.sum_cons]
    push_cast
    ring

/-- Two-record data set for the C7 witness: one date in each of two
consecutive week buckets. -/
def wDataC7 : List MarketData :=
  [{ wRecord 1 with date := 2 }, { wRecord 1 with date := 8 }]

/-- Witness for C7 over two week buckets starting at day 0. -/
theorem weekly_volume_partition_witness :
    ((calendarWeekStarts 0 2).map (weekTotalVolume wDataC7)).sum =
      (wDataC7.map (fun r => r.volume)).sum :=
  weekly_volume_partition wDataC7 0 2 (by decide)

/-- Helper for C1: a price list yields one consecutive return per
adjacent pair. -/
theorem returnsOf_length (l : List ℚ) : (returnsOf l).length = l.length - 1 := by
  induction l with
  | nil => rfl
  | cons b rest ih =>
    cases rest with
    | nil => rfl
    | cons c rest2 =>
      show ((c - b) / b :: returnsOf (c :: rest2)).length = (b :: c :: rest2).length - 1
      rw [List.length_cons, ih]
      simp

/-- Helper for C1: on a list of at least two strictly positive prices,
`calculateVolatility` is 100 times the square root of the population
variance of the consecutive returns. -/
theorem calculateVolatility_pos (l : List ℚ) (h2 : 2 ≤ l.length)
    (hpos : ∀ x ∈ l, 0 < x) :
    calculateVolatility l = Real.sqrt ((popVariance (returnsOf l) : ℚ) : ℝ) * 100 := by
  have hfilter : l.filter (fun price => 0 < price) = l :=
    List.filter_eq_self.mpr (fun a ha => decide_eq_true (hpos a ha))
  unfold calculateVolatility
  rw [if_neg (by omega)]
  dsimp only
  rw [hfilter, if_neg (by omega), if_neg (by rw [returnsOf_length]; omega)]

/-- C1: for a sequence of at least two records, the record at index `i`
of the enhanced output carries volatility
`0.6 × max(0, raw) + 0.4 × max(0, 100 × √(population variance of the
consecutive returns))`, where the returns are taken over the positive
closes of the trailing window of up to 7 records ending at `i`; when that
window holds fewer than 2 valid closes the original volatility, floored
at 0, is kept.  Sequences of length below 2 pass through unchanged. -/
theorem enhance_volatility_spec (data : List MarketData) (i : Nat) :
    (2 ≤ data.length → i < data.length →
      ((enhanceVolatilityData data).getD i default).volatility =
        (if (((data.take (i + 1)).drop (i + 1 - 7)).filter
              (fun d => 0 < d.close)).length < 2 then
          max 0 (((data.getD i default).volatility : ℝ))
        else
          0.6 * max 0 (((data.getD i default).volatility : ℝ)) +
            0.4 * max 0 (100 * Real.sqrt ((popVariance (returnsOf
              ((((data.take (i + 1)).drop (i + 1 - 7)).filter
                (fun d => 0 < d.close)).map (fun d => d.close))) : ℚ))))) ∧
    (data.length < 2 → enhanceVolatilityData data = data.map MarketData.toE) := by
  constructor
  · intro h2 hi
    unfold enhanceVolatilityData
    rw [if_neg (by omega)]
    rw [List.getD_eq_getElem?_getD, List.getElem?_eq_getElem (by simpa using hi)]
    simp only [Option.getD_some, List.getElem_map, List.getElem_range]
    have hwin : (data.drop (i + 1 - min 7 (i + 1))).take
        (i + 1 - (i + 1 - min 7 (i + 1))) = (data.take (i + 1)).drop (i + 1 - 7) := by
      rw [List.take_drop]
      have hsum : (i + 1 - min 7 (i + 1)) + (i + 1 - (i + 1 - min 7 (i + 1))) = i + 1 := by
        omega
      rw [hsum]
      congr 1
      omega
    rw [hwin]
    by_cases hvw : (((data.take (i + 1)).drop (i + 1 - 7)).filter
        (fun d => 0 < d.close)).length < 2
    · rw [if_pos hvw, if_pos hvw]
    · rw [if_neg hvw, if_neg hvw]
      have hposc : ∀ x ∈ (((data.take (i + 1)).drop (i + 1 - 7)).filter
          (fun d => 0 < d.close)).map (fun d => d.close), 0 < x := by
        intro x hx
        obtain ⟨d, hd, rfl⟩ := List.mem_map.mp hx
        exact of_decide_eq_true (List.mem_filter.mp hd).2
      have hlenc : 2 ≤ ((((data.take (i + 1)).drop (i + 1 - 7)).filter
          (fun d => 0 < d.close)).map (fun d => d.close)).length := by
        rw [List.length_map]
        omega
      rw [calculateVolatility_pos _ hlenc hposc, mul_comm (Real.sqrt _) (100 : ℝ)]
      dsimp only
      ring
  · intro h
    unfold enhanceVolatilityData
    rw [if_pos h]

/-- Two-record input for the C1 witness. -/
def wEnhData : List MarketData := [wRecord 1, wRecord 2]

/-- Witness for C1 at the concrete two-record input (index 1) and at a
singleton input for the pass-through clause. -/
theorem enhance_volatility_spec_witness :
    ((enhanceVolatilityData wEnhData).getD 1 default).volatility =
      (if (((wEnhData.take (1 + 1)).drop (1 + 1 - 7)).filter
            (fun d => 0 < d.close)).length < 2 then
        max 0 (((wEnhData.getD 1 default).volatility : ℝ))
      else
        0.6 * max 0 (((wEnhData.getD 1 default).volatility : ℝ)) +
          0.4 * max 0 (100 * Real.sqrt ((popVariance (returnsOf
            ((((wEnhData.take (1 + 1)).drop (1 + 1 - 7)).filter
              (fun d => 0 < d.close)).map (fun d => d.close))) : ℚ)))) ∧
    enhanceVolatilityData [wRecord 1] = [wRecord 1].map MarketData.toE :=
  ⟨(enhance_volatility_spec wEnhData 1).1 (by decide) (by decide),
   (enhance_volatility_spec [wRecord 1] 0).2 (by decide)⟩
